import Mathlib

/-!
Shallow embedding of the Formula1 CRUD backend (FastAPI + SQLAlchemy).

The relational store is modelled as three lists of rows (stages, stables,
results).  Python floats (race_time, lap_length) are modelled as rationals;
Python ints as Int; nullable columns as Option.  Each request handler from
app/routers and each data-access function from app/services becomes a pure
function; handlers that mutate state return the new store explicitly, and
HTTP failures are modelled with an explicit error value carrying the status
code, so that an error response leaves the store untouched by construction
of the return type.
-/

namespace App

/-- A row of the stages table (app/database/models/stage.py): id, name,
country, date, lap_length, attendance; attendance is nullable. -/
structure Stage where
  id : Int
  name : String
  country : String
  date : Int
  lap_length : Rat
  attendance : Option Int
deriving DecidableEq, Repr

/-- A row of the stables table (app/database/models/stable.py): id, name,
country, motor, tire; motor and tire are nullable. -/
structure Stable where
  id : Int
  name : String
  country : String
  motor : Option String
  tire : Option String
deriving DecidableEq, Repr

/-- A row of the results table (app/database/models/result.py): id,
stage_id, stable_id, driver_name, race_time, laps, pit_stops, position;
pit_stops and position are nullable. -/
structure Result where
  id : Int
  stage_id : Int
  stable_id : Int
  driver_name : String
  race_time : Rat
  laps : Int
  pit_stops : Option Int
  position : Option Int
deriving DecidableEq, Repr

/-- The relational store: the three tables. -/
structure DB where
  stages : List Stage
  stables : List Stable
  results : List Result
deriving DecidableEq, Repr

/-- An HTTP error response (FastAPI HTTPException): status code and
detail message. -/
structure HttpError where
  status : Nat
  detail : String
deriving DecidableEq, Repr

/-- The ResultCreate wire schema (app/schemas/result.py).  Every field of
ResultBase is annotated with a plain type and no default, so pydantic
treats all seven as required. -/
structure ResultCreate where
  driver_name : String
  race_time : Rat
  laps : Int
  position : Int
  pit_stops : Int
  stable_id : Int
  stage_id : Int
deriving DecidableEq, Repr

/-- The row inserted by create_result: Result(**result.dict()) with the
store-assigned id. -/
def ResultCreate.toRow (input : ResultCreate) (newId : Int) : Result :=
  { id := newId
    stage_id := input.stage_id
    stable_id := input.stable_id
    driver_name := input.driver_name
    race_time := input.race_time
    laps := input.laps
    pit_stops := some input.pit_stops
    position := some input.position }

/-- POST /results/ (app/routers/result.py, create_result): checks that the
referenced stable exists, then that the referenced stage exists, each
failing with HTTP 400, and only then inserts the new row.  `newId` stands
for the autoincrement primary key the store assigns. -/
def create_result (db : DB) (input : ResultCreate) (newId : Int) :
    DB × Except HttpError Result :=
  match db.stables.find? (fun sb => sb.id == input.stable_id) with
  | none => (db, .error ⟨400, "Invalid stable_id: does not exist"⟩)
  | some _ =>
    match db.stages.find? (fun st => st.id == input.stage_id) with
    | none => (db, .error ⟨400, "Invalid stage_id: does not exist"⟩)
    | some _ =>
      let r := input.toRow newId
      ({ db with results := db.results ++ [r] }, .ok r)

/-- GET /results/filter/ (app/routers/result.py, get_filtered_results):
select Results where stage_id and stable_id both match. -/
def get_filtered_results (db : DB) (stage_id stable_id : Int) : List Result :=
  db.results.filter (fun r => r.stage_id == stage_id && r.stable_id == stable_id)

/-- A JSON value appearing in the hand-built dict rows of the join view. -/
inductive Value where
  | vi : Int → Value
  | vs : String → Value
  | vr : Rat → Value
deriving DecidableEq, Repr

/-- The dict built for one joined row in get_results_with_details:
exactly the keys id, driver_name, race_time, stage_name, stable_name. -/
def resultDetailRow (res : Result) (stageName stableName : String) :
    List (String × Value) :=
  [("id", .vi res.id),
   ("driver_name", .vs res.driver_name),
   ("race_time", .vr res.race_time),
   ("stage_name", .vs stageName),
   ("stable_name", .vs stableName)]

/-- GET /results/join/ (app/routers/result.py, get_results_with_details):
inner join of results with stages on stage_id and stables on stable_id;
a result whose reference does not resolve produces no row. -/
def get_results_with_details (db : DB) : List (List (String × Value)) :=
  db.results.filterMap (fun res =>
    match db.stages.find? (fun st => st.id == res.stage_id),
          db.stables.find? (fun sb => sb.id == res.stable_id) with
    | some st, some sb => some (resultDetailRow res st.name sb.name)
    | _, _ => none)

/-- PUT /results/update_laps/ (app/routers/result.py, update_laps):
selects the Results with race_time strictly above the threshold, sets
laps on each, and returns the number of selected rows (the handler wraps
this count in a message string). -/
def update_laps (db : DB) (race_time_threshold : Rat) (new_laps : Int) :
    DB × Nat :=
  let matched := db.results.filter (fun r => decide (race_time_threshold < r.race_time))
  ({ db with
      results := db.results.map (fun r =>
        if race_time_threshold < r.race_time then { r with laps := new_laps } else r) },
   matched.length)

/-- Python str.lower() on the ASCII order tokens: character-wise
lower-casing. -/
def strLower (s : String) : String := ⟨s.data.map Char.toLower⟩

/-- Comparator for ORDER BY race_time ASC. -/
def raceTimeLE (a b : Result) : Bool := decide (a.race_time ≤ b.race_time)

/-- Comparator for ORDER BY race_time DESC. -/
def raceTimeGE (a b : Result) : Bool := decide (b.race_time ≤ a.race_time)

/-- GET /results/sorted/ (app/routers/result.py, get_sorted_results):
lower-cases the order token; "asc" sorts ascending by race_time, "desc"
descending, anything else is HTTP 400. -/
def get_sorted_results (db : DB) (order : String) :
    Except HttpError (List Result) :=
  if strLower order == "asc" then
    .ok (db.results.mergeSort raceTimeLE)
  else if strLower order == "desc" then
    .ok (db.results.mergeSort raceTimeGE)
  else
    .error ⟨400, "Invalid order parameter. Use asc or desc."⟩

/-- GET /stages/group_by/ (app/routers/stage.py,
get_average_race_time_per_stage): SELECT stage_id, avg(race_time) FROM
results GROUP BY stage_id — one pair per stage_id present among the
results, carrying the arithmetic mean of that group's race_time. -/
def get_average_race_time_per_stage (db : DB) : List (Int × Rat) :=
  ((db.results.map Result.stage_id).dedup).map (fun sid =>
    let grp := db.results.filter (fun r => r.stage_id == sid)
    (sid, (grp.map Result.race_time).sum / (grp.length : Rat)))

/-- Mutate the first element satisfying p, as the services layer does
after select ... scalar_one_or_none finds one row and setattr mutates it
in place. -/
def modifyFirst (p : α → Bool) (f : α → α) : List α → List α
  | [] => []
  | x :: xs => if p x then f x :: xs else x :: modifyFirst p f xs

/-- Modelled from the spec: the StageUpdate wire schema imported by
app/services/stage_services.py is not defined under app/schemas; per the
spec's partial-update contract, each updatable Stage attribute is an
optional field that is applied only when present (the identifier is not
updatable). -/
structure StageUpdate where
  name : Option String
  country : Option String
  date : Option Int
  lap_length : Option Rat
  attendance : Option (Option Int)
deriving DecidableEq, Repr

/-- The setattr loop of update_stage over dict(exclude_unset=True): each
field present in the partial input overwrites the row's field. -/
def applyStageUpdate (u : StageUpdate) (s : Stage) : Stage :=
  { s with
      name := u.name.getD s.name
      country := u.country.getD s.country
      date := u.date.getD s.date
      lap_length := u.lap_length.getD s.lap_length
      attendance := u.attendance.getD s.attendance }

/-- app/services/stage_services.py update_stage: find the row by id; if
absent return None and leave the store unchanged; otherwise apply the
present fields to that row and return it. -/
def update_stage (db : DB) (stage_id : Int) (u : StageUpdate) :
    DB × Option Stage :=
  match db.stages.find? (fun st => st.id == stage_id) with
  | none => (db, none)
  | some st =>
      ({ db with stages := modifyFirst (fun x => x.id == stage_id) (applyStageUpdate u) db.stages },
       some (applyStageUpdate u st))

/-- Modelled from the spec: the StableUpdate wire schema imported by
app/services/stable_services.py is not defined under app/schemas; per the
spec's partial-update contract, each updatable Stable attribute is an
optional field applied only when present. -/
structure StableUpdate where
  name : Option String
  country : Option String
  motor : Option (Option String)
  tire : Option (Option String)
deriving DecidableEq, Repr

/-- The setattr loop of update_stable over dict(exclude_unset=True). -/
def applyStableUpdate (u : StableUpdate) (s : Stable) : Stable :=
  { s with
      name := u.name.getD s.name
      country := u.country.getD s.country
      motor := u.motor.getD s.motor
      tire := u.tire.getD s.tire }

/-- app/services/stable_services.py update_stable: same shape as
update_stage. -/
def update_stable (db : DB) (stable_id : Int) (u : StableUpdate) :
    DB × Option Stable :=
  match db.stables.find? (fun sb => sb.id == stable_id) with
  | none => (db, none)
  | some sb =>
      ({ db with stables := modifyFirst (fun x => x.id == stable_id) (applyStableUpdate u) db.stables },
       some (applyStableUpdate u sb))

/-- Modelled from the spec: the ResultUpdate wire schema imported by
app/services/result_services.py is not defined under app/schemas; per the
spec's partial-update contract, each updatable Result attribute is an
optional field applied only when present. -/
structure ResultUpdate where
  stage_id : Option Int
  stable_id : Option Int
  driver_name : Option String
  race_time : Option Rat
  laps : Option Int
  pit_stops : Option (Option Int)
  position : Option (Option Int)
deriving DecidableEq, Repr

/-- The setattr loop of update_result over dict(exclude_unset=True). -/
def applyResultUpdate (u : ResultUpdate) (r : Result) : Result :=
  { r with
      stage_id := u.stage_id.getD r.stage_id
      stable_id := u.stable_id.getD r.stable_id
      driver_name := u.driver_name.getD r.driver_name
      race_time := u.race_time.getD r.race_time
      laps := u.laps.getD r.laps
      pit_stops := u.pit_stops.getD r.pit_stops
      position := u.position.getD r.position }

/-- app/services/result_services.py update_result: same shape as
update_stage. -/
def update_result (db : DB) (result_id : Int) (u : ResultUpdate) :
    DB × Option Result :=
  match db.results.find? (fun r => r.id == result_id) with
  | none => (db, none)
  | some r =>
      ({ db with results := modifyFirst (fun x => x.id == result_id) (applyResultUpdate u) db.results },
       some (applyResultUpdate u r))

/-- app/services/stage_services.py delete_stage: find the row by id; if
absent return False and change nothing; otherwise delete that row and
return True. -/
def delete_stage (db : DB) (stage_id : Int) : DB × Bool :=
  match db.stages.find? (fun st => st.id == stage_id) with
  | none => (db, false)
  | some _ =>
      ({ db with stages := db.stages.eraseP (fun st => st.id == stage_id) }, true)

/-- app/services/stable_services.py delete_stable. -/
def delete_stable (db : DB) (stable_id : Int) : DB × Bool :=
  match db.stables.find? (fun sb => sb.id == stable_id) with
  | none => (db, false)
  | some _ =>
      ({ db with stables := db.stables.eraseP (fun sb => sb.id == stable_id) }, true)

/-- app/services/result_services.py delete_result. -/
def delete_result (db : DB) (result_id : Int) : DB × Bool :=
  match db.results.find? (fun r => r.id == result_id) with
  | none => (db, false)
  | some _ =>
      ({ db with results := db.results.eraseP (fun r => r.id == result_id) }, true)

/-- A creation request body for a Result before validation: each field of
the JSON object may be present or absent. -/
structure ResultPayload where
  driver_name : Option String
  race_time : Option Rat
  laps : Option Int
  position : Option Int
  pit_stops : Option Int
  stable_id : Option Int
  stage_id : Option Int
deriving DecidableEq, Repr

/-- Pydantic validation of ResultCreate (app/schemas/result.py): every
field of ResultBase is annotated with a plain type and no default, so a
payload missing any of the seven fields is rejected. -/
def parseResultCreate (p : ResultPayload) : Option ResultCreate :=
  match p.driver_name, p.race_time, p.laps, p.position, p.pit_stops,
        p.stable_id, p.stage_id with
  | some dn, some rt, some l, some pos, some ps, some sb, some sg =>
      some ⟨dn, rt, l, pos, ps, sb, sg⟩
  | _, _, _, _, _, _, _ => none

/-- The StageCreate wire schema (app/schemas/stage.py): name, country,
date, attendance, lap_length, all annotated with plain types and no
defaults. -/
structure StageCreate where
  name : String
  country : String
  date : Int
  attendance : Int
  lap_length : Rat
deriving DecidableEq, Repr

/-- A creation request body for a Stage before validation. -/
structure StagePayload where
  name : Option String
  country : Option String
  date : Option Int
  attendance : Option Int
  lap_length : Option Rat
deriving DecidableEq, Repr

/-- Pydantic validation of StageCreate (app/schemas/stage.py): all five
fields, attendance included, are required. -/
def parseStageCreate (p : StagePayload) : Option StageCreate :=
  match p.name, p.country, p.date, p.attendance, p.lap_length with
  | some n, some c, some d, some a, some l => some ⟨n, c, d, a, l⟩
  | _, _, _, _, _ => none

/-- The StableCreate wire schema (app/schemas/stable.py): name and
country required; motor and tire are Optional with default None. -/
structure StableCreate where
  name : String
  country : String
  motor : Option String
  tire : Option String
deriving DecidableEq, Repr

/-- A creation request body for a Stable before validation. -/
structure StablePayload where
  name : Option String
  country : Option String
  motor : Option String
  tire : Option String
deriving DecidableEq, Repr

/-- Pydantic validation of StableCreate (app/schemas/stable.py): name and
country must be present; motor and tire default to None when absent. -/
def parseStableCreate (p : StablePayload) : Option StableCreate :=
  match p.name, p.country with
  | some n, some c => some ⟨n, c, p.motor, p.tire⟩
  | _, _ => none

/-! ### Shared helper lemmas -/

/-- In the zip of a list with its image under f, the right component of
every pair is f of the left component. -/
theorem mem_zip_map_self {α : Type} {l : List α} {f : α → α} {q : α × α}
    (h : q ∈ l.zip (l.map f)) : q.2 = f q.1 := by
  induction l with
  | nil => simp at h
  | cons x xs ih =>
    rw [List.map_cons, List.zip_cons_cons] at h
    rcases List.mem_cons.mp h with h1 | h1
    · subst h1; rfl
    · exact ih h1

/-- In the zip of a list with itself, every pair has equal components. -/
theorem mem_zip_self {α : Type} {l : List α} {q : α × α}
    (h : q ∈ l.zip l) : q.2 = q.1 := by
  induction l with
  | nil => simp at h
  | cons x xs ih =>
    rw [List.zip_cons_cons] at h
    rcases List.mem_cons.mp h with h1 | h1
    · subst h1; rfl
    · exact ih h1

/-- find? by key equality returns a given member when keys are unique. -/
theorem find?_key_eq_some {α : Type} {l : List α} {key : α → Int}
    (hnd : (l.map key).Nodup) {a : α} (ha : a ∈ l) {v : Int} (hv : key a = v) :
    l.find? (fun x => key x == v) = some a := by
  induction l with
  | nil => cases ha
  | cons x xs ih =>
    rw [List.map_cons, List.nodup_cons] at hnd
    rcases List.mem_cons.mp ha with h1 | h1
    · subst h1
      exact List.find?_cons_of_pos _ (by simpa using hv)
    · have hx : ¬((fun x => key x == v) x = true) := by
        simp only [beq_iff_eq]
        intro hxv
        exact hnd.1 (List.mem_map.mpr ⟨a, h1, by rw [hv, hxv]⟩)
      rw [List.find?_cons_of_neg xs hx]
      exact ih hnd.2 h1

/-- modifyFirst preserves the length. -/
theorem length_modifyFirst {α : Type} (p : α → Bool) (f : α → α) (l : List α) :
    (modifyFirst p f l).length = l.length := by
  induction l with
  | nil => rfl
  | cons x xs ih =>
    by_cases hx : p x <;> simp [modifyFirst, hx, ih]

/-- When keys are unique, a pair of the zip of a list with its
modifyFirst by key equality either satisfies the key equality (and the
right component is the modified left component) or does not (and the
components are equal). -/
theorem mem_zip_modifyFirst {α : Type} {l : List α} {key : α → Int}
    {v : Int} {f : α → α} (hnd : (l.map key).Nodup) {q : α × α}
    (h : q ∈ l.zip (modifyFirst (fun x => key x == v) f l)) :
    (key q.1 ≠ v → q.2 = q.1) ∧ (key q.1 = v → q.2 = f q.1) := by
  induction l with
  | nil => simp at h
  | cons x xs ih =>
    rw [List.map_cons, List.nodup_cons] at hnd
    by_cases hx : (key x == v) = true
    · have hxv : key x = v := by simpa using hx
      rw [show modifyFirst (fun x => key x == v) f (x :: xs) = f x :: xs by
            simp [modifyFirst, hx],
          List.zip_cons_cons] at h
      rcases List.mem_cons.mp h with h1 | h1
      · subst h1
        exact ⟨fun hne => absurd hxv hne, fun _ => rfl⟩
      · have hq : q.2 = q.1 := mem_zip_self h1
        have hq1 : q.1 ∈ xs := (List.of_mem_zip h1).1
        refine ⟨fun _ => hq, fun hkey => ?_⟩
        exact absurd (List.mem_map.mpr ⟨q.1, hq1, by rw [hkey, hxv]⟩) hnd.1
    · rw [show modifyFirst (fun x => key x == v) f (x :: xs)
              = x :: modifyFirst (fun x => key x == v) f xs by
            simp [modifyFirst, hx],
          List.zip_cons_cons] at h
      rcases List.mem_cons.mp h with h1 | h1
      · subst h1
        exact ⟨fun _ => rfl, fun hkey => absurd (by simpa using hkey) hx⟩
      · exact ih hnd.2 h1

/-! ### Sample rows used by the witnesses -/

/-- A sample stage row. -/
def stageA : Stage :=
  { id := 1, name := "Monza", country := "Italy", date := 738976,
    lap_length := 6, attendance := some 40000 }

/-- A sample stable row. -/
def stableA : Stable :=
  { id := 1, name := "Red Bull", country := "Austria",
    motor := some "Honda", tire := none }

/-- A sample result row referencing stageA and stableA. -/
def resultA : Result :=
  { id := 1, stage_id := 1, stable_id := 1, driver_name := "Max",
    race_time := 95, laps := 53, pit_stops := some 2,
    position := some 1 }

/-- A sample store holding the three sample rows. -/
def db0 : DB := { stages := [stageA], stables := [stableA], results := [resultA] }

/-- A creation input whose stable and stage references both resolve in db0. -/
def inputA : ResultCreate :=
  { driver_name := "Checo", race_time := 96, laps := 53, position := 2,
    pit_stops := 1, stable_id := 1, stage_id := 1 }

/-- A creation input whose stable reference does not resolve in db0. -/
def inputBadStable : ResultCreate := { inputA with stable_id := 99 }

/-- A creation input whose stage reference does not resolve in db0. -/
def inputBadStage : ResultCreate := { inputA with stage_id := 99 }

/-! ### Claim theorems -/

/-- C1: create_result rejects a missing stable reference with HTTP 400
leaving the store unchanged, rejects a missing stage reference (once the
stable exists) with HTTP 400 leaving the store unchanged, and when both
references resolve appends exactly the new row to the results table. -/
theorem create_result_spec (db : DB) (input : ResultCreate) (newId : Int) :
    ((∀ sb ∈ db.stables, sb.id ≠ input.stable_id) →
      create_result db input newId =
        (db, .error ⟨400, "Invalid stable_id: does not exist"⟩)) ∧
    ((∃ sb ∈ db.stables, sb.id = input.stable_id) →
      (∀ st ∈ db.stages, st.id ≠ input.stage_id) →
      create_result db input newId =
        (db, .error ⟨400, "Invalid stage_id: does not exist"⟩)) ∧
    ((∃ sb ∈ db.stables, sb.id = input.stable_id) →
      (∃ st ∈ db.stages, st.id = input.stage_id) →
      create_result db input newId =
        ({ db with results := db.results ++ [input.toRow newId] },
         .ok (input.toRow newId))) := by
  refine ⟨?_, ?_, ?_⟩
  · intro h
    have hf : db.stables.find? (fun sb => sb.id == input.stable_id) = none :=
      List.find?_eq_none.mpr (fun x hx => by simpa using h x hx)
    simp [create_result, hf]
  · rintro ⟨sb, hsb, hid⟩ h
    have hy : ∃ y, db.stables.find? (fun sb => sb.id == input.stable_id) = some y :=
      Option.isSome_iff_exists.mp
        (List.find?_isSome.mpr ⟨sb, hsb, by simpa using hid⟩)
    obtain ⟨y, hy⟩ := hy
    have hg : db.stages.find? (fun st => st.id == input.stage_id) = none :=
      List.find?_eq_none.mpr (fun x hx => by simpa using h x hx)
    simp [create_result, hy, hg]
  · rintro ⟨sb, hsb, hid⟩ ⟨st, hst, hid2⟩
    have hy : ∃ y, db.stables.find? (fun sb => sb.id == input.stable_id) = some y :=
      Option.isSome_iff_exists.mp
        (List.find?_isSome.mpr ⟨sb, hsb, by simpa using hid⟩)
    obtain ⟨y, hy⟩ := hy
    have hz : ∃ z, db.stages.find? (fun st => st.id == input.stage_id) = some z :=
      Option.isSome_iff_exists.mp
        (List.find?_isSome.mpr ⟨st, hst, by simpa using hid2⟩)
    obtain ⟨z, hz⟩ := hz
    simp [create_result, hy, hz]

/-- C1 witness: on the sample store, a bad stable reference and a bad
stage reference each yield HTTP 400 with the store untouched, and a valid
input is appended to the results table. -/
theorem create_result_spec_witness :
    create_result db0 inputBadStable 2 =
      (db0, .error ⟨400, "Invalid stable_id: does not exist"⟩) ∧
    create_result db0 inputBadStage 2 =
      (db0, .error ⟨400, "Invalid stage_id: does not exist"⟩) ∧
    create_result db0 inputA 2 =
      ({ db0 with results := db0.results ++ [inputA.toRow 2] },
       .ok (inputA.toRow 2)) :=
  ⟨(create_result_spec db0 inputBadStable 2).1 (by decide),
   (create_result_spec db0 inputBadStage 2).2.1 (by decide) (by decide),
   (create_result_spec db0 inputA 2).2.2 (by decide) (by decide)⟩

/-- C2: update_laps leaves the stages and stables tables unchanged, keeps
the results table the same length, reports the number of results whose
race_time strictly exceeds the threshold, and positionally each result
keeps every field except laps, which becomes the new value exactly when
its race_time strictly exceeds the threshold. -/
theorem update_laps_spec (db : DB) (t : Rat) (L : Int) :
    (update_laps db t L).1.stages = db.stages ∧
    (update_laps db t L).1.stables = db.stables ∧
    (update_laps db t L).1.results.length = db.results.length ∧
    (update_laps db t L).2 = db.results.countP (fun r => decide (t < r.race_time)) ∧
    ∀ q ∈ db.results.zip (update_laps db t L).1.results,
      q.2.id = q.1.id ∧ q.2.stage_id = q.1.stage_id ∧
      q.2.stable_id = q.1.stable_id ∧ q.2.driver_name = q.1.driver_name ∧
      q.2.race_time = q.1.race_time ∧ q.2.pit_stops = q.1.pit_stops ∧
      q.2.position = q.1.position ∧
      (t < q.1.race_time → q.2.laps = L) ∧
      (¬ t < q.1.race_time → q.2.laps = q.1.laps) := by
  refine ⟨rfl, rfl, by simp [update_laps],
    by simp [update_laps, List.countP_eq_length_filter], ?_⟩
  intro q hq
  have hq2 : q ∈ db.results.zip (db.results.map (fun r =>
      if t < r.race_time then { r with laps := L } else r)) := by
    simpa [update_laps] using hq
  have h2 : q.2 = if t < q.1.race_time then { q.1 with laps := L } else q.1 :=
    mem_zip_map_self
      (f := fun r => if t < r.race_time then { r with laps := L } else r) hq2
  by_cases h : t < q.1.race_time
  · rw [h2]; simp [h]
  · rw [h2]; simp [h]

/-- C2 witness: on the sample store with threshold 90, one result is
reported and the sample row, whose race_time 95.2 exceeds 90, has its
laps set to 60. -/
theorem update_laps_spec_witness :
    (update_laps db0 90 60).2 =
      db0.results.countP (fun r => decide ((90 : Rat) < r.race_time)) ∧
    (resultA, { resultA with laps := 60 }).2.laps = 60 :=
  ⟨(update_laps_spec db0 90 60).2.2.2.1,
   ((update_laps_spec db0 90 60).2.2.2.2 (resultA, { resultA with laps := 60 })
     (by decide)).2.2.2.2.2.2.2.1 (by decide)⟩

/-- C4: get_filtered_results returns exactly the stored results matching
both the stage and the stable reference, and the empty list (not an
error) when nothing matches. -/
theorem get_filtered_results_spec (db : DB) (s t : Int) :
    (∀ r, r ∈ get_filtered_results db s t ↔
      (r ∈ db.results ∧ r.stage_id = s ∧ r.stable_id = t)) ∧
    ((∀ r ∈ db.results, ¬(r.stage_id = s ∧ r.stable_id = t)) →
      get_filtered_results db s t = []) := by
  constructor
  · intro r
    simp [get_filtered_results, List.mem_filter, and_assoc]
  · intro h
    rw [get_filtered_results, List.filter_eq_nil_iff]
    intro a ha
    simpa using h a ha

/-- C4 witness: on the sample store, filtering by a stage id with no
matching result returns the empty list. -/
theorem get_filtered_results_spec_witness :
    get_filtered_results db0 2 1 = [] :=
  (get_filtered_results_spec db0 2 1).2 (by decide)

/-- C3: get_sorted_results returns, for an order token lower-casing to
"asc", a permutation of the stored results that is non-decreasing in
race_time; for "desc" a permutation non-increasing in race_time; and for
any other token HTTP 400. -/
theorem get_sorted_results_spec (db : DB) (order : String) :
    (strLower order = "asc" →
      get_sorted_results db order = .ok (db.results.mergeSort raceTimeLE) ∧
      (db.results.mergeSort raceTimeLE).Perm db.results ∧
      (db.results.mergeSort raceTimeLE).Pairwise
        (fun a b => a.race_time ≤ b.race_time)) ∧
    (strLower order = "desc" →
      get_sorted_results db order = .ok (db.results.mergeSort raceTimeGE) ∧
      (db.results.mergeSort raceTimeGE).Perm db.results ∧
      (db.results.mergeSort raceTimeGE).Pairwise
        (fun a b => b.race_time ≤ a.race_time)) ∧
    (strLower order ≠ "asc" → strLower order ≠ "desc" →
      get_sorted_results db order =
        .error ⟨400, "Invalid order parameter. Use asc or desc."⟩) := by
  refine ⟨?_, ?_, ?_⟩
  · intro h
    refine ⟨by simp [get_sorted_results, h], List.mergeSort_perm _ _, ?_⟩
    have hs : (db.results.mergeSort raceTimeLE).Pairwise
        (fun a b => raceTimeLE a b = true) :=
      List.sorted_mergeSort
        (fun a b c hab hbc => by
          simp only [raceTimeLE, decide_eq_true_eq] at hab hbc ⊢
          exact le_trans hab hbc)
        (fun a b => by
          simp only [raceTimeLE, Bool.or_eq_true, decide_eq_true_eq]
          exact le_total _ _)
        db.results
    exact hs.imp (fun hab => by simpa [raceTimeLE] using hab)
  · intro h
    have hne : strLower order ≠ "asc" := by rw [h]; decide
    refine ⟨by simp [get_sorted_results, h, hne], List.mergeSort_perm _ _, ?_⟩
    have hs : (db.results.mergeSort raceTimeGE).Pairwise
        (fun a b => raceTimeGE a b = true) :=
      List.sorted_mergeSort
        (fun a b c hab hbc => by
          simp only [raceTimeGE, decide_eq_true_eq] at hab hbc ⊢
          exact le_trans hbc hab)
        (fun a b => by
          simp only [raceTimeGE, Bool.or_eq_true, decide_eq_true_eq]
          exact le_total _ _)
        db.results
    exact hs.imp (fun hab => by simpa [raceTimeGE] using hab)
  · intro h1 h2
    simp [get_sorted_results, h1, h2]

/-- C3 witness: on the sample store, the tokens are matched after
lower-casing ("ASC", "DeSc"), and an unrecognized token yields HTTP 400. -/
theorem get_sorted_results_spec_witness :
    get_sorted_results db0 "ASC" = .ok (db0.results.mergeSort raceTimeLE) ∧
    get_sorted_results db0 "DeSc" = .ok (db0.results.mergeSort raceTimeGE) ∧
    get_sorted_results db0 "upward" =
      .error ⟨400, "Invalid order parameter. Use asc or desc."⟩ :=
  ⟨((get_sorted_results_spec db0 "ASC").1 (by decide)).1,
   ((get_sorted_results_spec db0 "DeSc").2.1 (by decide)).1,
   (get_sorted_results_spec db0 "upward").2.2 (by decide) (by decide)⟩

/-- C5: a stage identifier appears in get_average_race_time_per_stage
exactly when at least one stored result references it, and every pair in
the output carries the arithmetic mean of the race_time values of that
stage's results. -/
theorem get_average_race_time_per_stage_spec (db : DB) (sid : Int) :
    ((∃ a, (sid, a) ∈ get_average_race_time_per_stage db) ↔
      ∃ r ∈ db.results, r.stage_id = sid) ∧
    (∀ a, (sid, a) ∈ get_average_race_time_per_stage db →
      a = ((db.results.filter (fun r => r.stage_id == sid)).map
            Result.race_time).sum /
          ((db.results.filter (fun r => r.stage_id == sid)).length : Rat)) := by
  constructor
  · constructor
    · rintro ⟨a, ha⟩
      rw [get_average_race_time_per_stage, List.mem_map] at ha
      obtain ⟨x, hx, hfx⟩ := ha
      simp only [Prod.mk.injEq] at hfx
      obtain ⟨r, hr, hrid⟩ := List.mem_map.mp (List.mem_dedup.mp hx)
      exact ⟨r, hr, by rw [hrid, hfx.1]⟩
    · rintro ⟨r, hr, hid⟩
      refine ⟨((db.results.filter (fun x => x.stage_id == sid)).map
          Result.race_time).sum /
        ((db.results.filter (fun x => x.stage_id == sid)).length : Rat), ?_⟩
      rw [get_average_race_time_per_stage, List.mem_map]
      exact ⟨sid, List.mem_dedup.mpr (List.mem_map.mpr ⟨r, hr, hid⟩), rfl⟩
  · intro a ha
    rw [get_average_race_time_per_stage, List.mem_map] at ha
    obtain ⟨x, hx, hfx⟩ := ha
    simp only [Prod.mk.injEq] at hfx
    obtain ⟨hx1, hx2⟩ := hfx
    subst hx1
    exact hx2.symm

/-- C5 witness: on the sample store, the average reported for stage 1 is
the arithmetic mean of its single race_time. -/
theorem get_average_race_time_per_stage_spec_witness :
    (95 : Rat) =
      ((db0.results.filter (fun r => r.stage_id == 1)).map
        Result.race_time).sum /
      ((db0.results.filter (fun r => r.stage_id == 1)).length : Rat) :=
  (get_average_race_time_per_stage_spec db0 1).2 95
    (by simp [get_average_race_time_per_stage, db0, resultA])

/-- C6: under unique primary keys, a row is in the join view exactly when
some stored result's stage and stable references both resolve, and the
row then carries that stage's and that stable's names; a result with a
dangling reference contributes nothing, and no error is possible. -/
theorem get_results_with_details_spec (db : DB)
    (hst : (db.stages.map Stage.id).Nodup)
    (hsb : (db.stables.map Stable.id).Nodup) :
    ∀ row, row ∈ get_results_with_details db ↔
      ∃ res ∈ db.results, ∃ st ∈ db.stages, ∃ sb ∈ db.stables,
        st.id = res.stage_id ∧ sb.id = res.stable_id ∧
        row = resultDetailRow res st.name sb.name := by
  intro row
  rw [get_results_with_details, List.mem_filterMap]
  constructor
  · rintro ⟨res, hres, hrow⟩
    rcases hfs : db.stages.find? (fun x => x.id == res.stage_id) with _ | st <;>
      rcases hgs : db.stables.find? (fun x => x.id == res.stable_id) with _ | sb <;>
        rw [hfs, hgs] at hrow <;> simp at hrow
    refine ⟨res, hres, st, List.mem_of_find?_eq_some hfs, sb,
      List.mem_of_find?_eq_some hgs, ?_, ?_, hrow.symm⟩
    · simpa using List.find?_some hfs
    · simpa using List.find?_some hgs
  · rintro ⟨res, hres, st, hstm, sb, hsbm, hstid, hsbid, hroweq⟩
    refine ⟨res, hres, ?_⟩
    rw [find?_key_eq_some hst hstm hstid, find?_key_eq_some hsb hsbm hsbid]
    rw [hroweq]

/-- C6 witness: on the sample store, the sample result joins to its
stage and stable names. -/
theorem get_results_with_details_spec_witness :
    resultDetailRow resultA "Monza" "Red Bull" ∈ get_results_with_details db0 :=
  ((get_results_with_details_spec db0 (by decide) (by decide))
    (resultDetailRow resultA "Monza" "Red Bull")).mpr
    ⟨resultA, by decide, stageA, by decide, stableA, by decide,
     by decide, by decide, rfl⟩

/-- C10: every row of the join view has exactly the keys id,
driver_name, race_time, stage_name, stable_name, and none of laps,
pit_stops, position, stage_id, stable_id. -/
theorem get_results_with_details_keys (db : DB)
    (row : List (String × Value)) (h : row ∈ get_results_with_details db) :
    row.map Prod.fst =
      ["id", "driver_name", "race_time", "stage_name", "stable_name"] ∧
    "laps" ∉ row.map Prod.fst ∧ "pit_stops" ∉ row.map Prod.fst ∧
    "position" ∉ row.map Prod.fst ∧ "stage_id" ∉ row.map Prod.fst ∧
    "stable_id" ∉ row.map Prod.fst := by
  rw [get_results_with_details, List.mem_filterMap] at h
  obtain ⟨res, hres, hrow⟩ := h
  rcases hfs : db.stages.find? (fun x => x.id == res.stage_id) with _ | st <;>
    rcases hgs : db.stables.find? (fun x => x.id == res.stable_id) with _ | sb <;>
      rw [hfs, hgs] at hrow <;> simp at hrow
  rw [← hrow]
  refine ⟨rfl, ?_, ?_, ?_, ?_, ?_⟩ <;>
    · show ¬(_ ∈ (["id", "driver_name", "race_time", "stage_name",
        "stable_name"] : List String))
      decide

/-- C10 witness: the sample joined row has exactly the five keys. -/
theorem get_results_with_details_keys_witness :
    (resultDetailRow resultA "Monza" "Red Bull").map Prod.fst =
      ["id", "driver_name", "race_time", "stage_name", "stable_name"] :=
  (get_results_with_details_keys db0
    (resultDetailRow resultA "Monza" "Red Bull") (by decide)).1

/-- C7: for each of the three entities, partial update of a missing
identifier signals NotFound (None) and changes nothing; on an existing
row (under unique primary keys) it returns the row with exactly the
present fields overwritten, leaves the other tables and every other row
unchanged, and the applied update overwrites exactly the fields present
in the partial input, leaving absent fields and the identifier as they
were. -/
theorem update_partial_spec (db : DB) (eid : Int)
    (us : StageUpdate) (ur : ResultUpdate) (ub : StableUpdate) :
    ((∀ st ∈ db.stages, st.id ≠ eid) → update_stage db eid us = (db, none)) ∧
    ((db.stages.map Stage.id).Nodup → ∀ st ∈ db.stages, st.id = eid →
      (update_stage db eid us).2 = some (applyStageUpdate us st) ∧
      (update_stage db eid us).1.stables = db.stables ∧
      (update_stage db eid us).1.results = db.results ∧
      (update_stage db eid us).1.stages.length = db.stages.length) ∧
    ((db.stages.map Stage.id).Nodup →
      ∀ q ∈ db.stages.zip (update_stage db eid us).1.stages,
        (q.1.id ≠ eid → q.2 = q.1) ∧
        (q.1.id = eid → q.2 = applyStageUpdate us q.1)) ∧
    (∀ s : Stage,
      (applyStageUpdate us s).id = s.id ∧
      (us.name = none → (applyStageUpdate us s).name = s.name) ∧
      (∀ v, us.name = some v → (applyStageUpdate us s).name = v) ∧
      (us.country = none → (applyStageUpdate us s).country = s.country) ∧
      (∀ v, us.country = some v → (applyStageUpdate us s).country = v) ∧
      (us.date = none → (applyStageUpdate us s).date = s.date) ∧
      (∀ v, us.date = some v → (applyStageUpdate us s).date = v) ∧
      (us.lap_length = none →
        (applyStageUpdate us s).lap_length = s.lap_length) ∧
      (∀ v, us.lap_length = some v → (applyStageUpdate us s).lap_length = v) ∧
      (us.attendance = none →
        (applyStageUpdate us s).attendance = s.attendance) ∧
      (∀ v, us.attendance = some v →
        (applyStageUpdate us s).attendance = v)) ∧
    ((∀ r ∈ db.results, r.id ≠ eid) → update_result db eid ur = (db, none)) ∧
    ((db.results.map Result.id).Nodup → ∀ r ∈ db.results, r.id = eid →
      (update_result db eid ur).2 = some (applyResultUpdate ur r) ∧
      (update_result db eid ur).1.stages = db.stages ∧
      (update_result db eid ur).1.stables = db.stables ∧
      (update_result db eid ur).1.results.length = db.results.length) ∧
    ((db.results.map Result.id).Nodup →
      ∀ q ∈ db.results.zip (update_result db eid ur).1.results,
        (q.1.id ≠ eid → q.2 = q.1) ∧
        (q.1.id = eid → q.2 = applyResultUpdate ur q.1)) ∧
    (∀ r : Result,
      (applyResultUpdate ur r).id = r.id ∧
      (ur.driver_name = none →
        (applyResultUpdate ur r).driver_name = r.driver_name) ∧
      (∀ v, ur.driver_name = some v →
        (applyResultUpdate ur r).driver_name = v) ∧
      (ur.race_time = none →
        (applyResultUpdate ur r).race_time = r.race_time) ∧
      (∀ v, ur.race_time = some v → (applyResultUpdate ur r).race_time = v) ∧
      (ur.laps = none → (applyResultUpdate ur r).laps = r.laps) ∧
      (∀ v, ur.laps = some v → (applyResultUpdate ur r).laps = v) ∧
      (ur.pit_stops = none →
        (applyResultUpdate ur r).pit_stops = r.pit_stops) ∧
      (∀ v, ur.pit_stops = some v → (applyResultUpdate ur r).pit_stops = v) ∧
      (ur.position = none → (applyResultUpdate ur r).position = r.position) ∧
      (∀ v, ur.position = some v → (applyResultUpdate ur r).position = v) ∧
      (ur.stage_id = none → (applyResultUpdate ur r).stage_id = r.stage_id) ∧
      (∀ v, ur.stage_id = some v → (applyResultUpdate ur r).stage_id = v) ∧
      (ur.stable_id = none →
        (applyResultUpdate ur r).stable_id = r.stable_id) ∧
      (∀ v, ur.stable_id = some v → (applyResultUpdate ur r).stable_id = v)) ∧
    ((∀ sb ∈ db.stables, sb.id ≠ eid) → update_stable db eid ub = (db, none)) ∧
    ((db.stables.map Stable.id).Nodup → ∀ sb ∈ db.stables, sb.id = eid →
      (update_stable db eid ub).2 = some (applyStableUpdate ub sb) ∧
      (update_stable db eid ub).1.stages = db.stages ∧
      (update_stable db eid ub).1.results = db.results ∧
      (update_stable db eid ub).1.stables.length = db.stables.length) ∧
    ((db.stables.map Stable.id).Nodup →
      ∀ q ∈ db.stables.zip (update_stable db eid ub).1.stables,
        (q.1.id ≠ eid → q.2 = q.1) ∧
        (q.1.id = eid → q.2 = applyStableUpdate ub q.1)) ∧
    (∀ b : Stable,
      (applyStableUpdate ub b).id = b.id ∧
      (ub.name = none → (applyStableUpdate ub b).name = b.name) ∧
      (∀ v, ub.name = some v → (applyStableUpdate ub b).name = v) ∧
      (ub.country = none → (applyStableUpdate ub b).country = b.country) ∧
      (∀ v, ub.country = some v → (applyStableUpdate ub b).country = v) ∧
      (ub.motor = none → (applyStableUpdate ub b).motor = b.motor) ∧
      (∀ v, ub.motor = some v → (applyStableUpdate ub b).motor = v) ∧
      (ub.tire = none → (applyStableUpdate ub b).tire = b.tire) ∧
      (∀ v, ub.tire = some v → (applyStableUpdate ub b).tire = v)) := by
  refine ⟨?_, ?_, ?_, ?_, ?_, ?_, ?_, ?_, ?_, ?_, ?_, ?_⟩
  · intro h
    have hf : db.stages.find? (fun x => x.id == eid) = none :=
      List.find?_eq_none.mpr (fun x hx => by simpa using h x hx)
    simp [update_stage, hf]
  · intro hnd st hst hid
    have hf : db.stages.find? (fun x => x.id == eid) = some st :=
      find?_key_eq_some hnd hst hid
    exact ⟨by simp [update_stage, hf], by simp [update_stage, hf],
      by simp [update_stage, hf],
      by simp [update_stage, hf, length_modifyFirst]⟩
  · intro hnd q hq
    cases hfind : db.stages.find? (fun x => x.id == eid) with
    | none =>
      have hq2 : q ∈ db.stages.zip db.stages := by
        simpa [update_stage, hfind] using hq
      have hqq := mem_zip_self hq2
      have hne : q.1.id ≠ eid := by
        intro hk
        have h1 := List.find?_eq_none.mp hfind q.1 (List.of_mem_zip hq2).1
        simp [hk] at h1
      exact ⟨fun _ => hqq, fun hk => absurd hk hne⟩
    | some st =>
      have hq2 : q ∈ db.stages.zip
          (modifyFirst (fun x => x.id == eid) (applyStageUpdate us) db.stages) := by
        simpa [update_stage, hfind] using hq
      exact mem_zip_modifyFirst hnd hq2
  · intro s
    refine ⟨rfl, ?_, ?_, ?_, ?_, ?_, ?_, ?_, ?_, ?_, ?_⟩ <;>
      · intros
        simp [applyStageUpdate, *]
  · intro h
    have hf : db.results.find? (fun x => x.id == eid) = none :=
      List.find?_eq_none.mpr (fun x hx => by simpa using h x hx)
    simp [update_result, hf]
  · intro hnd r hr hid
    have hf : db.results.find? (fun x => x.id == eid) = some r :=
      find?_key_eq_some hnd hr hid
    exact ⟨by simp [update_result, hf], by simp [update_result, hf],
      by simp [update_result, hf],
      by simp [update_result, hf, length_modifyFirst]⟩
  · intro hnd q hq
    cases hfind : db.results.find? (fun x => x.id == eid) with
    | none =>
      have hq2 : q ∈ db.results.zip db.results := by
        simpa [update_result, hfind] using hq
      have hqq := mem_zip_self hq2
      have hne : q.1.id ≠ eid := by
        intro hk
        have h1 := List.find?_eq_none.mp hfind q.1 (List.of_mem_zip hq2).1
        simp [hk] at h1
      exact ⟨fun _ => hqq, fun hk => absurd hk hne⟩
    | some r =>
      have hq2 : q ∈ db.results.zip
          (modifyFirst (fun x => x.id == eid) (applyResultUpdate ur) db.results) := by
        simpa [update_result, hfind] using hq
      exact mem_zip_modifyFirst hnd hq2
  · intro r
    refine ⟨rfl, ?_, ?_, ?_, ?_, ?_, ?_, ?_, ?_, ?_, ?_, ?_, ?_, ?_, ?_⟩ <;>
      · intros
        simp [applyResultUpdate, *]
  · intro h
    have hf : db.stables.find? (fun x => x.id == eid) = none :=
      List.find?_eq_none.mpr (fun x hx => by simpa using h x hx)
    simp [update_stable, hf]
  · intro hnd sb hsb hid
    have hf : db.stables.find? (fun x => x.id == eid) = some sb :=
      find?_key_eq_some hnd hsb hid
    exact ⟨by simp [update_stable, hf], by simp [update_stable, hf],
      by simp [update_stable, hf],
      by simp [update_stable, hf, length_modifyFirst]⟩
  · intro hnd q hq
    cases hfind : db.stables.find? (fun x => x.id == eid) with
    | none =>
      have hq2 : q ∈ db.stables.zip db.stables := by
        simpa [update_stable, hfind] using hq
      have hqq := mem_zip_self hq2
      have hne : q.1.id ≠ eid := by
        intro hk
        have h1 := List.find?_eq_none.mp hfind q.1 (List.of_mem_zip hq2).1
        simp [hk] at h1
      exact ⟨fun _ => hqq, fun hk => absurd hk hne⟩
    | some sb =>
      have hq2 : q ∈ db.stables.zip
          (modifyFirst (fun x => x.id == eid) (applyStableUpdate ub) db.stables) := by
        simpa [update_stable, hfind] using hq
      exact mem_zip_modifyFirst hnd hq2
  · intro b
    refine ⟨rfl, ?_, ?_, ?_, ?_, ?_, ?_, ?_, ?_⟩ <;>
      · intros
        simp [applyStableUpdate, *]

/-- A partial stage update setting only the name. -/
def us0 : StageUpdate :=
  { name := some "Imola", country := none, date := none,
    lap_length := none, attendance := none }

/-- A partial result update setting only the laps. -/
def ur0 : ResultUpdate :=
  { stage_id := none, stable_id := none, driver_name := none,
    race_time := none, laps := some 50, pit_stops := none, position := none }

/-- A partial stable update clearing only the motor. -/
def ub0 : StableUpdate :=
  { name := none, country := none, motor := some none, tire := none }

/-- C7 witness: on the sample store, updating a missing identifier
changes nothing for each entity; updating stage 1 with only a new name
returns the updated row, whose name is overwritten and whose country is
untouched. -/
theorem update_partial_spec_witness :
    update_stage db0 2 us0 = (db0, none) ∧
    (update_stage db0 1 us0).2 = some (applyStageUpdate us0 stageA) ∧
    (applyStageUpdate us0 stageA).name = "Imola" ∧
    (applyStageUpdate us0 stageA).country = stageA.country ∧
    update_result db0 2 ur0 = (db0, none) ∧
    update_stable db0 2 ub0 = (db0, none) :=
  ⟨(update_partial_spec db0 2 us0 ur0 ub0).1 (by decide),
   ((update_partial_spec db0 1 us0 ur0 ub0).2.1 (by decide) stageA
     (by decide) (by decide)).1,
   ((update_partial_spec db0 1 us0 ur0 ub0).2.2.2.1 stageA).2.2.1 "Imola" rfl,
   ((update_partial_spec db0 1 us0 ur0 ub0).2.2.2.1 stageA).2.2.2.1 rfl,
   (update_partial_spec db0 2 us0 ur0 ub0).2.2.2.2.1 (by decide),
   (update_partial_spec db0 2 us0 ur0 ub0).2.2.2.2.2.2.2.2.1 (by decide)⟩

/-- C8: for each of the three entities, deleting a missing identifier
returns false and changes nothing (no failure is raised: the function is
total); deleting an existing identifier (under unique primary keys)
returns true, removes exactly that row, and leaves the other tables
unchanged. -/
theorem delete_spec (db : DB) (eid : Int) :
    ((∀ st ∈ db.stages, st.id ≠ eid) → delete_stage db eid = (db, false)) ∧
    ((db.stages.map Stage.id).Nodup → ∀ st ∈ db.stages, st.id = eid →
      (delete_stage db eid).2 = true ∧
      (delete_stage db eid).1.stables = db.stables ∧
      (delete_stage db eid).1.results = db.results ∧
      (delete_stage db eid).1.stages.length + 1 = db.stages.length) ∧
    ((db.stages.map Stage.id).Nodup → ∀ x : Stage,
      (x ∈ (delete_stage db eid).1.stages ↔
        (x ∈ db.stages ∧ x.id ≠ eid))) ∧
    ((∀ r ∈ db.results, r.id ≠ eid) → delete_result db eid = (db, false)) ∧
    ((db.results.map Result.id).Nodup → ∀ r ∈ db.results, r.id = eid →
      (delete_result db eid).2 = true ∧
      (delete_result db eid).1.stages = db.stages ∧
      (delete_result db eid).1.stables = db.stables ∧
      (delete_result db eid).1.results.length + 1 = db.results.length) ∧
    ((db.results.map Result.id).Nodup → ∀ x : Result,
      (x ∈ (delete_result db eid).1.results ↔
        (x ∈ db.results ∧ x.id ≠ eid))) ∧
    ((∀ sb ∈ db.stables, sb.id ≠ eid) → delete_stable db eid = (db, false)) ∧
    ((db.stables.map Stable.id).Nodup → ∀ sb ∈ db.stables, sb.id = eid →
      (delete_stable db eid).2 = true ∧
      (delete_stable db eid).1.stages = db.stages ∧
      (delete_stable db eid).1.results = db.results ∧
      (delete_stable db eid).1.stables.length + 1 = db.stables.length) ∧
    ((db.stables.map Stable.id).Nodup → ∀ x : Stable,
      (x ∈ (delete_stable db eid).1.stables ↔
        (x ∈ db.stables ∧ x.id ≠ eid))) := by
  refine ⟨?_, ?_, ?_, ?_, ?_, ?_, ?_, ?_, ?_⟩
  · intro h
    have hf : db.stages.find? (fun x => x.id == eid) = none :=
      List.find?_eq_none.mpr (fun x hx => by simpa using h x hx)
    simp [delete_stage, hf]
  · intro hnd st hst hid
    have hf : db.stages.find? (fun x => x.id == eid) = some st :=
      find?_key_eq_some hnd hst hid
    have hlen := List.length_eraseP_of_mem (p := fun x => x.id == eid)
      hst (by simpa using hid)
    have hpos : 0 < db.stages.length := List.length_pos.mpr
      (fun hnil => by rw [hnil] at hst; cases hst)
    refine ⟨by simp [delete_stage, hf], by simp [delete_stage, hf],
      by simp [delete_stage, hf], ?_⟩
    simp only [delete_stage, hf]
    rw [hlen]
    omega
  · intro hnd x
    cases hfind : db.stages.find? (fun s => s.id == eid) with
    | none =>
      simp only [delete_stage, hfind]
      constructor
      · intro hx
        refine ⟨hx, ?_⟩
        simpa using List.find?_eq_none.mp hfind x hx
      · exact And.left
    | some st =>
      have hstl : st ∈ db.stages := List.mem_of_find?_eq_some hfind
      obtain ⟨a, l1, l2, hl1, hpa, hdec, herase⟩ :=
        List.exists_of_eraseP hstl (List.find?_some hfind)
      have haid : a.id = eid := by simpa using hpa
      simp only [delete_stage, hfind]
      rw [herase]
      rw [hdec, List.map_append, List.map_cons] at hnd
      have hna : a.id ∉ l2.map Stage.id :=
        (List.nodup_cons.mp (List.nodup_append.mp hnd).2.1).1
      constructor
      · intro hx
        rcases List.mem_append.mp hx with h1 | h2
        · refine ⟨by rw [hdec]; exact List.mem_append.mpr (Or.inl h1), ?_⟩
          simpa using hl1 x h1
        · refine ⟨by
            rw [hdec]
            exact List.mem_append.mpr (Or.inr (List.mem_cons.mpr (Or.inr h2))),
            ?_⟩
          intro hxe
          exact hna (List.mem_map.mpr ⟨x, h2, by rw [hxe, haid]⟩)
      · rintro ⟨hx, hne⟩
        rw [hdec] at hx
        rcases List.mem_append.mp hx with h1 | h2
        · exact List.mem_append.mpr (Or.inl h1)
        · rcases List.mem_cons.mp h2 with h3 | h3
          · exact absurd (show x.id = eid by rw [h3]; exact haid) hne
          · exact List.mem_append.mpr (Or.inr h3)
  · intro h
    have hf : db.results.find? (fun x => x.id == eid) = none :=
      List.find?_eq_none.mpr (fun x hx => by simpa using h x hx)
    simp [delete_result, hf]
  · intro hnd r hr hid
    have hf : db.results.find? (fun x => x.id == eid) = some r :=
      find?_key_eq_some hnd hr hid
    have hlen := List.length_eraseP_of_mem (p := fun x => x.id == eid)
      hr (by simpa using hid)
    have hpos : 0 < db.results.length := List.length_pos.mpr
      (fun hnil => by rw [hnil] at hr; cases hr)
    refine ⟨by simp [delete_result, hf], by simp [delete_result, hf],
      by simp [delete_result, hf], ?_⟩
    simp only [delete_result, hf]
    rw [hlen]
    omega
  · intro hnd x
    cases hfind : db.results.find? (fun s => s.id == eid) with
    | none =>
      simp only [delete_result, hfind]
      constructor
      · intro hx
        refine ⟨hx, ?_⟩
        simpa using List.find?_eq_none.mp hfind x hx
      · exact And.left
    | some r =>
      have hrl : r ∈ db.results := List.mem_of_find?_eq_some hfind
      obtain ⟨a, l1, l2, hl1, hpa, hdec, herase⟩ :=
        List.exists_of_eraseP hrl (List.find?_some hfind)
      have haid : a.id = eid := by simpa using hpa
      simp only [delete_result, hfind]
      rw [herase]
      rw [hdec, List.map_append, List.map_cons] at hnd
      have hna : a.id ∉ l2.map Result.id :=
        (List.nodup_cons.mp (List.nodup_append.mp hnd).2.1).1
      constructor
      · intro hx
        rcases List.mem_append.mp hx with h1 | h2
        · refine ⟨by rw [hdec]; exact List.mem_append.mpr (Or.inl h1), ?_⟩
          simpa using hl1 x h1
        · refine ⟨by
            rw [hdec]
            exact List.mem_append.mpr (Or.inr (List.mem_cons.mpr (Or.inr h2))),
            ?_⟩
          intro hxe
          exact hna (List.mem_map.mpr ⟨x, h2, by rw [hxe, haid]⟩)
      · rintro ⟨hx, hne⟩
        rw [hdec] at hx
        rcases List.mem_append.mp hx with h1 | h2
        · exact List.mem_append.mpr (Or.inl h1)
        · rcases List.mem_cons.mp h2 with h3 | h3
          · exact absurd (show x.id = eid by rw [h3]; exact haid) hne
          · exact List.mem_append.mpr (Or.inr h3)
  · intro h
    have hf : db.stables.find? (fun x => x.id == eid) = none :=
      List.find?_eq_none.mpr (fun x hx => by simpa using h x hx)
    simp [delete_stable, hf]
  · intro hnd sb hsb hid
    have hf : db.stables.find? (fun x => x.id == eid) = some sb :=
      find?_key_eq_some hnd hsb hid
    have hlen := List.length_eraseP_of_mem (p := fun x => x.id == eid)
      hsb (by simpa using hid)
    have hpos : 0 < db.stables.length := List.length_pos.mpr
      (fun hnil => by rw [hnil] at hsb; cases hsb)
    refine ⟨by simp [delete_stable, hf], by simp [delete_stable, hf],
      by simp [delete_stable, hf], ?_⟩
    simp only [delete_stable, hf]
    rw [hlen]
    omega
  · intro hnd x
    cases hfind : db.stables.find? (fun s => s.id == eid) with
    | none =>
      simp only [delete_stable, hfind]
      constructor
      · intro hx
        refine ⟨hx, ?_⟩
        simpa using List.find?_eq_none.mp hfind x hx
      · exact And.left
    | some sb =>
      have hsbl : sb ∈ db.stables := List.mem_of_find?_eq_some hfind
      obtain ⟨a, l1, l2, hl1, hpa, hdec, herase⟩ :=
        List.exists_of_eraseP hsbl (List.find?_some hfind)
      have haid : a.id = eid := by simpa using hpa
      simp only [delete_stable, hfind]
      rw [herase]
      rw [hdec, List.map_append, List.map_cons] at hnd
      have hna : a.id ∉ l2.map Stable.id :=
        (List.nodup_cons.mp (List.nodup_append.mp hnd).2.1).1
      constructor
      · intro hx
        rcases List.mem_append.mp hx with h1 | h2
        · refine ⟨by rw [hdec]; exact List.mem_append.mpr (Or.inl h1), ?_⟩
          simpa using hl1 x h1
        · refine ⟨by
            rw [hdec]
            exact List.mem_append.mpr (Or.inr (List.mem_cons.mpr (Or.inr h2))),
            ?_⟩
          intro hxe
          exact hna (List.mem_map.mpr ⟨x, h2, by rw [hxe, haid]⟩)
      · rintro ⟨hx, hne⟩
        rw [hdec] at hx
        rcases List.mem_append.mp hx with h1 | h2
        · exact List.mem_append.mpr (Or.inl h1)
        · rcases List.mem_cons.mp h2 with h3 | h3
          · exact absurd (show x.id = eid by rw [h3]; exact haid) hne
          · exact List.mem_append.mpr (Or.inr h3)

/-- C8 witness: on the sample store, deleting a missing identifier
returns false for each entity with the store unchanged; deleting stage 1
returns true and its row is gone. -/
theorem delete_spec_witness :
    delete_stage db0 2 = (db0, false) ∧
    (delete_stage db0 1).2 = true ∧
    (stageA ∈ (delete_stage db0 1).1.stages ↔
      (stageA ∈ db0.stages ∧ stageA.id ≠ 1)) ∧
    delete_result db0 2 = (db0, false) ∧
    delete_stable db0 2 = (db0, false) :=
  ⟨(delete_spec db0 2).1 (by decide),
   ((delete_spec db0 1).2.1 (by decide) stageA (by decide) (by decide)).1,
   (delete_spec db0 1).2.2.1 (by decide) stageA,
   (delete_spec db0 2).2.2.2.1 (by decide),
   (delete_spec db0 2).2.2.2.2.2.2.1 (by decide)⟩

/-- C9 counterexample: a Result creation payload omitting only pit_stops
and position is rejected by the ResultCreate schema, and a Stage creation
payload omitting only attendance is rejected by the StageCreate schema —
so neither is accepted as the claim states. -/
theorem parse_optional_counterexample :
    parseResultCreate
      { driver_name := some "Max", race_time := some 95, laps := some 53,
        position := none, pit_stops := none, stable_id := some 1,
        stage_id := some 1 } = none ∧
    parseStageCreate
      { name := some "Monza", country := some "Italy", date := some 738976,
        attendance := none, lap_length := some 6 } = none :=
  ⟨rfl, rfl⟩

/-- C9 amended: at the creation interface every Result field (pit_stops
and position included) and every Stage field (attendance included) is
required — validation succeeds exactly when all are present — while for
Stable only name and country are required and motor and tire default to
absent. -/
theorem parse_required_fields (p : ResultPayload) (q : StagePayload)
    (s : StablePayload) (n c : String) :
    ((parseResultCreate p).isSome ↔
      (p.driver_name.isSome ∧ p.race_time.isSome ∧ p.laps.isSome ∧
       p.position.isSome ∧ p.pit_stops.isSome ∧ p.stable_id.isSome ∧
       p.stage_id.isSome)) ∧
    ((parseStageCreate q).isSome ↔
      (q.name.isSome ∧ q.country.isSome ∧ q.date.isSome ∧
       q.attendance.isSome ∧ q.lap_length.isSome)) ∧
    ((parseStableCreate s).isSome ↔ (s.name.isSome ∧ s.country.isSome)) ∧
    (s.name = some n → s.country = some c →
      parseStableCreate s = some ⟨n, c, s.motor, s.tire⟩) := by
  refine ⟨?_, ?_, ?_, ?_⟩
  · obtain ⟨d, r, l, po, pi, sb, sg⟩ := p
    cases d <;> cases r <;> cases l <;> cases po <;> cases pi <;>
      cases sb <;> cases sg <;> simp [parseResultCreate]
  · obtain ⟨n0, c0, d0, a0, l0⟩ := q
    cases n0 <;> cases c0 <;> cases d0 <;> cases a0 <;> cases l0 <;>
      simp [parseStageCreate]
  · obtain ⟨n0, c0, m0, t0⟩ := s
    cases n0 <;> cases c0 <;> simp [parseStableCreate]
  · obtain ⟨n0, c0, m0, t0⟩ := s
    intro hn hc
    cases hn
    cases hc
    rfl

/-- C9 amended witness: a Stable payload with name and country present
parses, defaulting motor and tire from the payload. -/
theorem parse_required_fields_witness :
    parseStableCreate
      { name := some "Red Bull", country := some "Austria",
        motor := some "Honda", tire := none } =
      some ⟨"Red Bull", "Austria", some "Honda", none⟩ :=
  (parse_required_fields
    { driver_name := none, race_time := none, laps := none, position := none,
      pit_stops := none, stable_id := none, stage_id := none }
    { name := none, country := none, date := none, attendance := none,
      lap_length := none }
    { name := some "Red Bull", country := some "Austria",
      motor := some "Honda", tire := none }
    "Red Bull" "Austria").2.2.2 rfl rfl

end App
